import Mathlib

/-!
# BoardContent: optimistic reordering of a board's columns and cards

A shallow embedding of the event handlers of
`src/components/BoardContent/BoardContent.js`:
`onColumnDrop`, `onCardDrop`, `addNewColumn` and `onUpdateColumnState`.

* JavaScript objects become structures, arrays become lists, `null` becomes
  `none`.
* A handler is a function from the state captured by its closure (the local
  `columns`, the store's `board`, the two form fields) to the `Effects` it has:
  the state writes it performs, in order, the remote calls it issues, in order,
  each with the callbacks attached to its promise, and the exception that ended
  it, if any.
* Callbacks are data: the variables the closure captured.
* The remote API (`actions/ApiCall`) is a `Gateway` parameter that decides how
  each call settles; `run` publishes the writes and then settles the calls.
* `applyDrag` (`utilities/dragDrop`) is a parameter of the two drop handlers: a
  call of it returns a list or throws. `Patcher.apply` is its model after the
  specification, used wherever a concrete patcher is needed.
* The effect that copies the board's columns into the local columns
  (`syncColumns`) is kept apart from the handlers; `run_state_synced` shows
  that it changes nothing on the states the handlers lead to.
-/

namespace BoardContent

/-! ## Data model -/

/-- A card: the fields a card object carries through this component. -/
structure Card where
  _id : String
  boardId : String
  columnId : String
  title : String
  deriving DecidableEq, Repr

/-- A column with its cards; `_destroy` is the soft-delete flag (absent = false). -/
structure Column where
  _id : String
  boardId : String
  title : String
  cardOrder : List String
  cards : List Card
  _destroy : Bool
  deriving DecidableEq, Repr

/-- The full board held by the store. -/
structure Board where
  _id : String
  title : String
  columnOrder : List String
  columns : List Column
  deriving DecidableEq, Repr

/-- The drop result reported by the drag library. -/
structure DropResult (α : Type) where
  removedIndex : Option Nat
  addedIndex : Option Nat
  payload : Option α
  deriving DecidableEq, Repr

/-- The body of the create-column request. -/
structure NewColumn where
  boardId : String
  title : String
  deriving DecidableEq, Repr

/-- Exceptions that can end a handler. -/
inductive Exn where
  | InvariantViolation
  | TypeError
  deriving DecidableEq, Repr

/-! ## JavaScript built-ins used by the handlers -/

/-- The lodash `cloneDeep`: a structurally equal copy; values have no identity here. -/
def cloneDeep {α : Type} (value : α) : α := value

/-- The method `Array.prototype.findIndex`: index of the first match, `-1` when there is none. -/
def findIndex {α : Type} (p : α → Bool) (arr : List α) : Int :=
  if arr.findIdx p < arr.length then (arr.findIdx p : Int) else -1

/-- The method `Array.prototype.splice(start, deleteCount, ...items)`, as the resulting array.
A negative `start` counts from the end; both `start` and `deleteCount` are clamped. -/
def splice {α : Type} (arr : List α) (start : Int) (deleteCount : Nat) (items : List α) : List α :=
  let len : Int := arr.length
  let actualStart : Nat := if start < 0 then (max (len + start) 0).toNat else (min start len).toNat
  let actualDeleteCount : Nat := min deleteCount (arr.length - actualStart)
  arr.take actualStart ++ items ++ arr.drop (actualStart + actualDeleteCount)

/-- White space and line terminators of ECMAScript, the characters `trim` strips. -/
def isJsWhiteSpace (c : Char) : Bool :=
  let n := c.toNat
  n == 0x09 || n == 0x0A || n == 0x0B || n == 0x0C || n == 0x0D || n == 0x20 || n == 0xA0
    || n == 0x1680 || (0x2000 ≤ n && n ≤ 0x200A) || n == 0x2028 || n == 0x2029
    || n == 0x202F || n == 0x205F || n == 0x3000 || n == 0xFEFF

/-- The method `String.prototype.trim`. -/
def trim (s : String) : String :=
  String.mk ((s.data.dropWhile isJsWhiteSpace).reverse.dropWhile isJsWhiteSpace).reverse

/-! ## Component state, writes and remote calls -/

/-- What the component renders from: the store's board and its three local states. -/
structure State where
  board : Board
  columns : List Column
  openNewColumnForm : Bool
  newColumnTitle : String
  deriving DecidableEq, Repr

/-- A state write performed by a handler or a callback. -/
inductive Write where
  | setColumns (columns : List Column)
  | updateCurrentFullBoard (board : Board)
  | setNewColumnTitle (title : String)
  | setOpenNewColumnForm (isOpen : Bool)
  | focusNewColumnInput
  deriving DecidableEq, Repr

/-- The effect of one write on the state. -/
def Write.perform (s : State) : Write → State
  | .setColumns columns => { s with columns := columns }
  | .updateCurrentFullBoard board => { s with board := board }
  | .setNewColumnTitle title => { s with newColumnTitle := title }
  | .setOpenNewColumnForm isOpen => { s with openNewColumnForm := isOpen }
  | .focusNewColumnInput => s

/-- Publishing a sequence of writes, in order. -/
def publish (s : State) (writes : List Write) : State :=
  writes.foldl Write.perform s

/-- A call to the remote API with its arguments. -/
inductive ApiCall where
  | updateBoardAPI (id : String) (data : Board)
  | updateColumnAPI (id : String) (data : Column)
  | updateCardAPI (id : String) (data : Card)
  | createNewColumnAPI (data : NewColumn)
  deriving DecidableEq, Repr

/-- The `.catch(() => ...)` callback of the drop handlers with the two
snapshots it closes over. -/
structure CatchRestore where
  originalColumns : List Column
  originalBoard : Board
  deriving DecidableEq, Repr

/-- Body of the `.catch` callback. -/
def CatchRestore.writes (k : CatchRestore) : List Write :=
  [.setColumns k.originalColumns, .updateCurrentFullBoard k.originalBoard]

/-- The `.then(column => ...)` callback of `addNewColumn` with the variables it closes over. -/
structure ThenAppend where
  columns : List Column
  board : Board
  openNewColumnForm : Bool
  deriving DecidableEq, Repr

/-- Body of the `.then` callback of `addNewColumn`. -/
def ThenAppend.writes (k : ThenAppend) (column : Column) : List Write :=
  let newColumns := k.columns ++ [column]
  let newBoard : Board :=
    { k.board with columnOrder := newColumns.map (fun c => c._id), columns := newColumns }
  [.setColumns newColumns, .updateCurrentFullBoard newBoard,
   .setNewColumnTitle "", .setOpenNewColumnForm (!k.openNewColumnForm)]

/-- An issued remote call and the callbacks attached to its promise. -/
structure Call where
  api : ApiCall
  onFulfilled : Option ThenAppend
  onRejected : Option CatchRestore
  deriving DecidableEq, Repr

/-- Everything a handler does before it returns. -/
structure Effects where
  writes : List Write
  calls : List Call
  thrown : Option Exn
  deriving DecidableEq, Repr

/-- How a promise settles. -/
inductive Settled (α : Type) where
  | fulfilled (value : α)
  | rejected
  deriving DecidableEq, Repr

/-- The remote API of `actions/ApiCall`: how each call settles. -/
structure Gateway where
  updateBoardAPI : String → Board → Settled Unit
  updateColumnAPI : String → Column → Settled Unit
  updateCardAPI : String → Card → Settled Unit
  createNewColumnAPI : NewColumn → Settled Column

/-- The settlement of a call; only a created column is read from a response. -/
def Gateway.respond (gw : Gateway) : ApiCall → Settled (Option Column)
  | .updateBoardAPI id data =>
    match gw.updateBoardAPI id data with
    | .fulfilled _ => .fulfilled none
    | .rejected => .rejected
  | .updateColumnAPI id data =>
    match gw.updateColumnAPI id data with
    | .fulfilled _ => .fulfilled none
    | .rejected => .rejected
  | .updateCardAPI id data =>
    match gw.updateCardAPI id data with
    | .fulfilled _ => .fulfilled none
    | .rejected => .rejected
  | .createNewColumnAPI data =>
    match gw.createNewColumnAPI data with
    | .fulfilled column => .fulfilled (some column)
    | .rejected => .rejected

/-- The state once calls have settled, and the rejections no callback caught. -/
structure Outcome where
  state : State
  unhandledRejections : List ApiCall
  deriving DecidableEq, Repr

/-- Settling one call: run the callback attached for the way it settled. -/
def settleCall (gw : Gateway) (o : Outcome) (c : Call) : Outcome :=
  match gw.respond c.api with
  | .fulfilled value =>
    match c.onFulfilled, value with
    | some k, some column => { o with state := publish o.state (k.writes column) }
    | _, _ => o
  | .rejected =>
    match c.onRejected with
    | some k => { o with state := publish o.state k.writes }
    | none => { o with unhandledRejections := o.unhandledRejections ++ [c.api] }

/-- Settling the issued calls in the order they were issued. A handler attaches callbacks to
at most one of the calls it issues, so the order does not bear on the resulting state. -/
def settle (gw : Gateway) (s : State) (calls : List Call) : Outcome :=
  calls.foldl (settleCall gw) { state := s, unhandledRejections := [] }

/-- A handler invocation to completion: its writes are published, then its calls settle. -/
def run (gw : Gateway) (s : State) (e : Effects) : Outcome :=
  settle gw (publish s e.writes) e.calls

/-! ## The handlers -/

/-- The handler `onColumnDrop` (lines 60-79). -/
def onColumnDrop (applyDrag : List Column → DropResult Column → Except Exn (List Column))
    (s : State) (dropResult : DropResult Column) : Effects :=
  let originalColumns := cloneDeep s.columns
  let newColumns := s.columns
  match applyDrag newColumns dropResult with
  | .error e => { writes := [], calls := [], thrown := some e }
  | .ok newColumns =>
    let originalBoard := cloneDeep s.board
    let newBoard : Board :=
      { s.board with columnOrder := newColumns.map (fun c => c._id), columns := newColumns }
    { writes := [.setColumns newColumns, .updateCurrentFullBoard newBoard]
      calls := [{ api := .updateBoardAPI newBoard._id newBoard
                  onFulfilled := none
                  onRejected := some { originalColumns := originalColumns
                                       originalBoard := originalBoard } }]
      thrown := none }

/-- The handler `onCardDrop` (lines 81-145). -/
def onCardDrop (applyDrag : List Card → DropResult Card → Except Exn (List Card))
    (s : State) (columnId : String) (dropResult : DropResult Card) : Effects :=
  if dropResult.removedIndex.isSome || dropResult.addedIndex.isSome then
    let originalColumns := cloneDeep s.columns
    let newColumns := s.columns
    match newColumns.find? (fun c => c._id == columnId) with
    | none => { writes := [], calls := [], thrown := none }
    | some foundColumn =>
      match applyDrag foundColumn.cards dropResult with
      | .error e => { writes := [], calls := [], thrown := some e }
      | .ok newCards =>
        let newCardOrder := newCards.map (fun i => i._id)
        let currentColumn : Column :=
          { foundColumn with cards := newCards, cardOrder := newCardOrder }
        let currentColumnIndex := findIndex (fun c => c._id == columnId) newColumns
        let newColumns := splice newColumns currentColumnIndex 1 [currentColumn]
        let originalBoard := cloneDeep s.board
        let newBoard : Board :=
          { s.board with columnOrder := newColumns.map (fun c => c._id), columns := newColumns }
        let writes : List Write := [.setColumns newColumns, .updateCurrentFullBoard newBoard]
        let updateColumn : Call :=
          { api := .updateColumnAPI currentColumn._id currentColumn
            onFulfilled := none
            onRejected := some { originalColumns := originalColumns
                                 originalBoard := originalBoard } }
        if dropResult.removedIndex.isSome && dropResult.addedIndex.isSome then
          { writes := writes, calls := [updateColumn], thrown := none }
        else if dropResult.addedIndex.isSome then
          match cloneDeep dropResult.payload with
          | none => { writes := writes, calls := [updateColumn], thrown := some .TypeError }
          | some clonedCard =>
            let currentCard : Card := { clonedCard with columnId := currentColumn._id }
            { writes := writes
              calls := [updateColumn,
                        { api := .updateCardAPI currentCard._id currentCard
                          onFulfilled := none
                          onRejected := none }]
              thrown := none }
        else
          { writes := writes, calls := [updateColumn], thrown := none }
  else
    { writes := [], calls := [], thrown := none }

/-- The handler `addNewColumn` (lines 147-172). -/
def addNewColumn (s : State) : Effects :=
  if s.newColumnTitle = "" then
    { writes := [.focusNewColumnInput], calls := [], thrown := none }
  else
    let newColumnToAdd : NewColumn := { boardId := s.board._id, title := trim s.newColumnTitle }
    { writes := []
      calls := [{ api := .createNewColumnAPI newColumnToAdd
                  onFulfilled := some { columns := s.columns
                                        board := s.board
                                        openNewColumnForm := s.openNewColumnForm }
                  onRejected := none }]
      thrown := none }

/-- The handler `onUpdateColumnState` (lines 174-194). -/
def onUpdateColumnState (s : State) (newColumnToUpdate : Column) : Effects :=
  let columnIdToUpdate := newColumnToUpdate._id
  let newColumns := s.columns
  let columnIndexToUpdate := findIndex (fun i => i._id == columnIdToUpdate) newColumns
  let newColumns :=
    if newColumnToUpdate._destroy then
      splice newColumns columnIndexToUpdate 1 []
    else
      splice newColumns columnIndexToUpdate 1 [newColumnToUpdate]
  let newBoard : Board :=
    { s.board with columnOrder := newColumns.map (fun c => c._id), columns := newColumns }
  { writes := [.setColumns newColumns, .updateCurrentFullBoard newBoard]
    calls := []
    thrown := none }

/-! ## The patcher after the specification, and the fixtures of its scenarios -/

/-- Modelled from the spec: the body of `applyDrag` (`utilities/dragDrop`), which is not among
the sources, after §4.1 "Ordered-Collection Patcher": a non-null `removedIndex` removes the
element at that index; a non-null `addedIndex` inserts the payload (or, if the payload is null,
the element just removed) at that index in the resulting sequence; an index out of range, or
nothing to insert, fails with `InvariantViolation`. -/
def Patcher.apply {α : Type} (sequence : List α) (move : DropResult α) : Except Exn (List α) :=
  match move.removedIndex with
  | some i =>
    match sequence[i]? with
    | none => .error .InvariantViolation
    | some removed =>
      let rest := sequence.eraseIdx i
      match move.addedIndex with
      | none => .ok rest
      | some j =>
        if j ≤ rest.length then
          .ok (rest.take j ++ [move.payload.getD removed] ++ rest.drop j)
        else .error .InvariantViolation
  | none =>
    match move.addedIndex with
    | none => .ok sequence
    | some j =>
      match move.payload with
      | none => .error .InvariantViolation
      | some item =>
        if j ≤ sequence.length then .ok (sequence.take j ++ [item] ++ sequence.drop j)
        else .error .InvariantViolation

/-- Card `x` of Scenario C, owned by `C1`. -/
def cardX : Card := { _id := "x", boardId := "b1", columnId := "C1", title := "x" }

/-- Card `y` of Scenario C, owned by `C1`. -/
def cardY : Card := { _id := "y", boardId := "b1", columnId := "C1", title := "y" }

/-- Card `z` of Scenario C, owned by `C2`. -/
def cardZ : Card := { _id := "z", boardId := "b1", columnId := "C2", title := "z" }

/-- Column `C1` of Scenario C, with items `[x, y]`. -/
def columnC1 : Column :=
  { _id := "C1", boardId := "b1", title := "Todo", cardOrder := ["x", "y"],
    cards := [cardX, cardY], _destroy := false }

/-- Column `C2` of Scenario C, with items `[z]`. -/
def columnC2 : Column :=
  { _id := "C2", boardId := "b1", title := "Done", cardOrder := ["z"],
    cards := [cardZ], _destroy := false }

/-- The board of Scenario C. -/
def boardC : Board :=
  { _id := "b1", title := "Board", columnOrder := ["C1", "C2"], columns := [columnC1, columnC2] }

/-- The component state showing the board of Scenario C. -/
def stateC : State :=
  { board := boardC, columns := boardC.columns, openNewColumnForm := false, newColumnTitle := "" }

/-- The state of Scenario E: the form is open and holds the title `"Backlog"`. -/
def stateE : State :=
  { board := boardC, columns := boardC.columns, openNewColumnForm := true,
    newColumnTitle := "Backlog" }

/-- The column the remote authority creates in Scenario E. -/
def columnNew : Column :=
  { _id := "col-9", boardId := "b1", title := "Backlog", cardOrder := [], cards := [],
    _destroy := false }

/-- A gateway on which every call is fulfilled; creation answers `columnNew`. -/
def gatewayOk : Gateway :=
  { updateBoardAPI := fun _ _ => .fulfilled ()
    updateColumnAPI := fun _ _ => .fulfilled ()
    updateCardAPI := fun _ _ => .fulfilled ()
    createNewColumnAPI := fun _ => .fulfilled columnNew }

/-- A gateway on which every call is rejected. -/
def gatewayDown : Gateway :=
  { updateBoardAPI := fun _ _ => .rejected
    updateColumnAPI := fun _ _ => .rejected
    updateCardAPI := fun _ _ => .rejected
    createNewColumnAPI := fun _ => .rejected }

/-- A gateway on which only the card update is rejected. -/
def gatewayCardDown : Gateway :=
  { gatewayOk with updateCardAPI := fun _ _ => .rejected }

/-- Scenario A: the first column is dragged to the second position. -/
def moveColumnA : DropResult Column :=
  { removedIndex := some 0, addedIndex := some 1, payload := some columnC1 }

/-- An intra-column move on `C1`: `x` goes behind `y`. -/
def moveWithin : DropResult Card :=
  { removedIndex := some 0, addedIndex := some 1, payload := some cardX }

/-- Scenario C, source side: `x` leaves `C1`. -/
def moveOut : DropResult Card :=
  { removedIndex := some 0, addedIndex := none, payload := some cardX }

/-- Scenario C, destination side: `x` arrives in `C2` at index 1. -/
def moveIn : DropResult Card :=
  { removedIndex := none, addedIndex := some 1, payload := some cardX }

/-- The move that moves nothing. -/
def moveNone : DropResult Card :=
  { removedIndex := none, addedIndex := none, payload := none }


/-! ## The handlers case by case -/

/-- The column `onCardDrop` writes back for the found column `col` and the patched cards. -/
def patchedColumn (col : Column) (newCards : List Card) : Column :=
  { col with cards := newCards, cardOrder := newCards.map (fun i => i._id) }

/-- The column list `onCardDrop` publishes: the patched column spliced over the first column
with the given id. -/
def patchedColumns (s : State) (columnId : String) (col : Column) (newCards : List Card) :
    List Column :=
  splice s.columns (findIndex (fun c => c._id == columnId) s.columns) 1
    [patchedColumn col newCards]

/-- The board a handler publishes for the column list `newColumns`. -/
def boardWith (s : State) (newColumns : List Column) : Board :=
  { s.board with columnOrder := newColumns.map (fun c => c._id), columns := newColumns }

/-- The rollback callback of a handler called in state `s`. -/
def restoreOf (s : State) : CatchRestore :=
  { originalColumns := s.columns, originalBoard := s.board }

/-- The effect of lines 43-47, run after a render in which the store's board has changed:
the local columns are set to the columns of the board. -/
def syncColumns (s : State) : State :=
  Write.perform s (.setColumns s.board.columns)

/-- Index alignment of a column: `cardOrder` is the ids of `cards`, in order. -/
def Column.aligned (c : Column) : Prop :=
  c.cardOrder = c.cards.map (fun i => i._id)

instance (c : Column) : Decidable c.aligned := by
  unfold Column.aligned; infer_instance

/-- Index alignment of a board: `columnOrder` is the ids of `columns`, in order, and every
column is aligned. -/
def Board.aligned (b : Board) : Prop :=
  b.columnOrder = b.columns.map (fun c => c._id) ∧ ∀ c ∈ b.columns, c.aligned

instance (b : Board) : Decidable b.aligned := by
  unfold Board.aligned; infer_instance

/-- Item ownership on a column list: every card names the column that holds it. -/
def ownedBy (columns : List Column) : Prop :=
  ∀ col ∈ columns, ∀ card ∈ col.cards, card.columnId = col._id

instance (columns : List Column) : Decidable (ownedBy columns) := by
  unfold ownedBy; infer_instance

/-- The function `getChildPayload` of the column container (line 201): the payload of a column
drop is the column at the dragged index, `columns[index]`. -/
def getChildPayload (s : State) (index : Nat) : Option Column :=
  s.columns[index]?

/-- A column whose id no column of Scenario C has. -/
def columnGhost : Column :=
  { _id := "ghost", boardId := "b1", title := "Ghost", cardOrder := [], cards := [],
    _destroy := false }

theorem onColumnDrop_error
    (applyDrag : List Column → DropResult Column → Except Exn (List Column))
    (s : State) (d : DropResult Column) (e : Exn) (h : applyDrag s.columns d = .error e) :
    onColumnDrop applyDrag s d = { writes := [], calls := [], thrown := some e } := by
  simp [onColumnDrop, h]

theorem onColumnDrop_ok
    (applyDrag : List Column → DropResult Column → Except Exn (List Column))
    (s : State) (d : DropResult Column) (newColumns : List Column)
    (h : applyDrag s.columns d = .ok newColumns) :
    onColumnDrop applyDrag s d =
      { writes := [.setColumns newColumns, .updateCurrentFullBoard (boardWith s newColumns)]
        calls := [{ api := .updateBoardAPI s.board._id (boardWith s newColumns)
                    onFulfilled := none
                    onRejected := some (restoreOf s) }]
        thrown := none } := by
  simp [onColumnDrop, h, boardWith, restoreOf, cloneDeep]

theorem onCardDrop_noop (applyDrag : List Card → DropResult Card → Except Exn (List Card))
    (s : State) (columnId : String) (d : DropResult Card)
    (hr : d.removedIndex = none) (ha : d.addedIndex = none) :
    onCardDrop applyDrag s columnId d = { writes := [], calls := [], thrown := none } := by
  simp [onCardDrop, hr, ha]

theorem onCardDrop_absent (applyDrag : List Card → DropResult Card → Except Exn (List Card))
    (s : State) (columnId : String) (d : DropResult Card)
    (hfind : s.columns.find? (fun c => c._id == columnId) = none) :
    onCardDrop applyDrag s columnId d = { writes := [], calls := [], thrown := none } := by
  simp only [onCardDrop, hfind]
  split <;> rfl

theorem onCardDrop_error (applyDrag : List Card → DropResult Card → Except Exn (List Card))
    (s : State) (columnId : String) (d : DropResult Card) (col : Column) (e : Exn)
    (hmove : d.removedIndex ≠ none ∨ d.addedIndex ≠ none)
    (hfind : s.columns.find? (fun c => c._id == columnId) = some col)
    (hpatch : applyDrag col.cards d = .error e) :
    onCardDrop applyDrag s columnId d = { writes := [], calls := [], thrown := some e } := by
  have hm : (d.removedIndex.isSome || d.addedIndex.isSome) = true := by
    rcases hmove with h | h
    · simp [Option.isSome_iff_ne_none.mpr h]
    · simp [Option.isSome_iff_ne_none.mpr h]
  simp [onCardDrop, hm, hfind, hpatch]

/-- Both indices set: one column update. -/
theorem onCardDrop_within (applyDrag : List Card → DropResult Card → Except Exn (List Card))
    (s : State) (columnId : String) (d : DropResult Card) (col : Column) (newCards : List Card)
    (i j : Nat) (hr : d.removedIndex = some i) (ha : d.addedIndex = some j)
    (hfind : s.columns.find? (fun c => c._id == columnId) = some col)
    (hpatch : applyDrag col.cards d = .ok newCards) :
    onCardDrop applyDrag s columnId d =
      { writes := [.setColumns (patchedColumns s columnId col newCards),
                   .updateCurrentFullBoard (boardWith s (patchedColumns s columnId col newCards))]
        calls := [{ api := .updateColumnAPI col._id (patchedColumn col newCards)
                    onFulfilled := none
                    onRejected := some (restoreOf s) }]
        thrown := none } := by
  simp [onCardDrop, hr, ha, hfind, hpatch, patchedColumns, patchedColumn, boardWith, restoreOf,
    cloneDeep]

/-- Only `removedIndex` set: one column update. -/
theorem onCardDrop_removal (applyDrag : List Card → DropResult Card → Except Exn (List Card))
    (s : State) (columnId : String) (d : DropResult Card) (col : Column) (newCards : List Card)
    (i : Nat) (hr : d.removedIndex = some i) (ha : d.addedIndex = none)
    (hfind : s.columns.find? (fun c => c._id == columnId) = some col)
    (hpatch : applyDrag col.cards d = .ok newCards) :
    onCardDrop applyDrag s columnId d =
      { writes := [.setColumns (patchedColumns s columnId col newCards),
                   .updateCurrentFullBoard (boardWith s (patchedColumns s columnId col newCards))]
        calls := [{ api := .updateColumnAPI col._id (patchedColumn col newCards)
                    onFulfilled := none
                    onRejected := some (restoreOf s) }]
        thrown := none } := by
  simp [onCardDrop, hr, ha, hfind, hpatch, patchedColumns, patchedColumn, boardWith, restoreOf,
    cloneDeep]

/-- Only `addedIndex` set, with a payload: a column update and a card update. -/
theorem onCardDrop_insertion (applyDrag : List Card → DropResult Card → Except Exn (List Card))
    (s : State) (columnId : String) (d : DropResult Card) (col : Column) (newCards : List Card)
    (j : Nat) (card : Card)
    (hr : d.removedIndex = none) (ha : d.addedIndex = some j) (hp : d.payload = some card)
    (hfind : s.columns.find? (fun c => c._id == columnId) = some col)
    (hpatch : applyDrag col.cards d = .ok newCards) :
    onCardDrop applyDrag s columnId d =
      { writes := [.setColumns (patchedColumns s columnId col newCards),
                   .updateCurrentFullBoard (boardWith s (patchedColumns s columnId col newCards))]
        calls := [{ api := .updateColumnAPI col._id (patchedColumn col newCards)
                    onFulfilled := none
                    onRejected := some (restoreOf s) },
                  { api := .updateCardAPI card._id { card with columnId := col._id }
                    onFulfilled := none
                    onRejected := none }]
        thrown := none } := by
  simp [onCardDrop, hr, ha, hp, hfind, hpatch, patchedColumns, patchedColumn, boardWith,
    restoreOf, cloneDeep]

/-- Only `addedIndex` set, without a payload: the column update is issued, then writing
`columnId` on `null` throws. -/
theorem onCardDrop_insertion_null
    (applyDrag : List Card → DropResult Card → Except Exn (List Card))
    (s : State) (columnId : String) (d : DropResult Card) (col : Column) (newCards : List Card)
    (j : Nat)
    (hr : d.removedIndex = none) (ha : d.addedIndex = some j) (hp : d.payload = none)
    (hfind : s.columns.find? (fun c => c._id == columnId) = some col)
    (hpatch : applyDrag col.cards d = .ok newCards) :
    onCardDrop applyDrag s columnId d =
      { writes := [.setColumns (patchedColumns s columnId col newCards),
                   .updateCurrentFullBoard (boardWith s (patchedColumns s columnId col newCards))]
        calls := [{ api := .updateColumnAPI col._id (patchedColumn col newCards)
                    onFulfilled := none
                    onRejected := some (restoreOf s) }]
        thrown := some .TypeError } := by
  simp [onCardDrop, hr, ha, hp, hfind, hpatch, patchedColumns, patchedColumn, boardWith,
    restoreOf, cloneDeep]

/-- The shapes an invocation of `onCardDrop` can have: nothing written and nothing issued, or
the two writes and the column update carrying the rollback callback, followed by at most one
card update that carries no callback. -/
theorem onCardDrop_shape (applyDrag : List Card → DropResult Card → Except Exn (List Card))
    (s : State) (columnId : String) (d : DropResult Card) :
    ((onCardDrop applyDrag s columnId d).writes = [] ∧
      (onCardDrop applyDrag s columnId d).calls = []) ∨
    ∃ col newCards, s.columns.find? (fun c => c._id == columnId) = some col ∧
      applyDrag col.cards d = .ok newCards ∧
      (onCardDrop applyDrag s columnId d).writes =
        [.setColumns (patchedColumns s columnId col newCards),
         .updateCurrentFullBoard (boardWith s (patchedColumns s columnId col newCards))] ∧
      ∃ more, (onCardDrop applyDrag s columnId d).calls =
          { api := .updateColumnAPI col._id (patchedColumn col newCards)
            onFulfilled := none
            onRejected := some (restoreOf s) } :: more ∧
        (more = [] ∨ ∃ id card, more =
          [{ api := .updateCardAPI id card, onFulfilled := none, onRejected := none }]) := by
  cases hfind : s.columns.find? (fun c => c._id == columnId) with
  | none => left; rw [onCardDrop_absent _ _ _ _ hfind]; exact ⟨rfl, rfl⟩
  | some col =>
    cases hr : d.removedIndex with
    | none =>
      cases ha : d.addedIndex with
      | none => left; rw [onCardDrop_noop _ _ _ _ hr ha]; exact ⟨rfl, rfl⟩
      | some j =>
        cases hpatch : applyDrag col.cards d with
        | error e =>
          left
          rw [onCardDrop_error _ _ _ _ col e (Or.inr (by simp [ha])) hfind hpatch]
          exact ⟨rfl, rfl⟩
        | ok newCards =>
          right
          refine ⟨col, newCards, rfl, hpatch, ?_⟩
          cases hp : d.payload with
          | none =>
            rw [onCardDrop_insertion_null _ _ _ _ col newCards j hr ha hp hfind hpatch]
            exact ⟨rfl, [], rfl, Or.inl rfl⟩
          | some card =>
            rw [onCardDrop_insertion _ _ _ _ col newCards j card hr ha hp hfind hpatch]
            exact ⟨rfl, _, rfl, Or.inr ⟨_, _, rfl⟩⟩
    | some i =>
      cases hpatch : applyDrag col.cards d with
      | error e =>
        left
        rw [onCardDrop_error _ _ _ _ col e (Or.inl (by simp [hr])) hfind hpatch]
        exact ⟨rfl, rfl⟩
      | ok newCards =>
        right
        refine ⟨col, newCards, rfl, hpatch, ?_⟩
        cases ha : d.addedIndex with
        | none =>
          rw [onCardDrop_removal _ _ _ _ col newCards i hr ha hfind hpatch]
          exact ⟨rfl, [], rfl, Or.inl rfl⟩
        | some j =>
          rw [onCardDrop_within _ _ _ _ col newCards i j hr ha hfind hpatch]
          exact ⟨rfl, [], rfl, Or.inl rfl⟩

/-! ## Rollback (C1) -/

/-- The rollback callback of a handler called in state `s` republishes `s`, whatever the
columns and the board have become in between. -/
theorem publish_restore (s : State) (columns : List Column) (board : Board) :
    publish (publish s [.setColumns columns, .updateCurrentFullBoard board])
      (restoreOf s).writes = s := by
  simp [publish, CatchRestore.writes, Write.perform, restoreOf]

/-- C1. Rollback: if the `updateBoardAPI` call issued by `onColumnDrop`, respectively the
`updateColumnAPI` call issued by `onCardDrop` (whatever the kind of move), is rejected, the
state after the calls have settled is the state the handler was called in. -/
theorem rollback_on_primary_rejection
    (applyColumns : List Column → DropResult Column → Except Exn (List Column))
    (applyCards : List Card → DropResult Card → Except Exn (List Card))
    (gw : Gateway) (s : State) (columnDrop : DropResult Column)
    (columnId : String) (cardDrop : DropResult Card)
    (hBoard : ∀ c ∈ (onColumnDrop applyColumns s columnDrop).calls, ∀ id data,
      c.api = .updateBoardAPI id data → gw.updateBoardAPI id data = .rejected)
    (hColumn : ∀ c ∈ (onCardDrop applyCards s columnId cardDrop).calls, ∀ id data,
      c.api = .updateColumnAPI id data → gw.updateColumnAPI id data = .rejected) :
    (run gw s (onColumnDrop applyColumns s columnDrop)).state = s ∧
    (run gw s (onCardDrop applyCards s columnId cardDrop)).state = s := by
  constructor
  · cases h : applyColumns s.columns columnDrop with
    | error e => rw [onColumnDrop_error _ _ _ e h]; rfl
    | ok newColumns =>
      rw [onColumnDrop_ok _ _ _ newColumns h] at hBoard ⊢
      have hr := hBoard _ (List.mem_singleton.mpr rfl) _ _ rfl
      simp only [run, settle, List.foldl, settleCall, Gateway.respond, hr]
      exact publish_restore s _ _
  · rcases onCardDrop_shape applyCards s columnId cardDrop with ⟨hw, hc⟩ |
      ⟨col, newCards, -, -, hw, more, hc, hmore⟩
    · simp [run, settle, hw, hc, publish]
    · rw [hc] at hColumn
      have hr := hColumn _ (List.mem_cons_self _ _) _ _ rfl
      rcases hmore with rfl | ⟨id, card, rfl⟩
      · simp only [run, settle, hw, hc, List.foldl, settleCall, Gateway.respond, hr]
        exact publish_restore s _ _
      · simp only [run, settle, hw, hc, List.foldl, settleCall, Gateway.respond, hr]
        cases gw.updateCardAPI id card <;> exact publish_restore s _ _

/-- C1, witnessed on Scenario A (column reorder) and on the arrival of `x` in `C2` with a
gateway on which every call is rejected: the optimistic writes change the state, and the state
after settlement is the old one again. -/
theorem rollback_on_primary_rejection_witness :
    (publish stateC (onColumnDrop Patcher.apply stateC moveColumnA).writes ≠ stateC ∧
      publish stateC (onCardDrop Patcher.apply stateC "C2" moveIn).writes ≠ stateC) ∧
    (run gatewayDown stateC (onColumnDrop Patcher.apply stateC moveColumnA)).state = stateC ∧
    (run gatewayDown stateC (onCardDrop Patcher.apply stateC "C2" moveIn)).state = stateC :=
  ⟨by decide,
   rollback_on_primary_rejection Patcher.apply Patcher.apply gatewayDown stateC moveColumnA
    "C2" moveIn (fun _ _ _ _ _ => rfl) (fun _ _ _ _ _ => rfl)⟩


/-! ## `find`, `findIndex` and `splice` -/

/-- When `find` returns an element, `findIdx` is the position of that element. -/
theorem findIdx_of_find? {α : Type} (p : α → Bool) (l : List α) (a : α)
    (h : l.find? p = some a) : l.findIdx p < l.length ∧ l[l.findIdx p]? = some a := by
  induction l with
  | nil => simp at h
  | cons x xs ih =>
    rw [List.find?_cons] at h
    rw [List.findIdx_cons]
    cases hx : p x with
    | true =>
      rw [hx] at h
      simp only [Option.some.injEq] at h
      simp [h]
    | false =>
      rw [hx] at h
      have := ih h
      simpa using this

/-- When `find` returns an element, `findIndex` is its (non-negative) position. -/
theorem findIndex_of_find? {α : Type} (p : α → Bool) (l : List α) (a : α)
    (h : l.find? p = some a) : findIndex p l = (l.findIdx p : Int) := by
  simp [findIndex, (findIdx_of_find? p l a h).1]

/-- When no element matches, `findIndex` is `-1`. -/
theorem findIndex_of_forall_not {α : Type} (p : α → Bool) (l : List α)
    (h : ∀ x ∈ l, p x = false) : findIndex p l = -1 := by
  have : l.findIdx p = l.length := List.findIdx_eq_length.mpr h
  simp [findIndex, this]

/-- Splicing one element over an index in range replaces the element at that index. -/
theorem splice_one_in_range {α : Type} (l : List α) (k : Nat) (hk : k < l.length) (x : α) :
    splice l (k : Int) 1 [x] = l.set k x := by
  have h1 : ¬ ((k : Int) < 0) := by omega
  have h2 : (min (k : Int) (l.length : Int)).toNat = k := by
    rw [min_eq_left (by omega)]; simp
  have h3 : min 1 (l.length - k) = 1 := by omega
  simp only [splice, h1, if_false, h2, h3]
  rw [List.set_eq_take_append_cons_drop, if_pos hk]
  simp

/-- Removing one element at an index in range. -/
theorem splice_remove_in_range {α : Type} (l : List α) (k : Nat) (hk : k < l.length) :
    splice l (k : Int) 1 [] = l.eraseIdx k := by
  have h1 : ¬ ((k : Int) < 0) := by omega
  have h2 : (min (k : Int) (l.length : Int)).toNat = k := by
    rw [min_eq_left (by omega)]; simp
  have h3 : min 1 (l.length - k) = 1 := by omega
  simp only [splice, h1, if_false, h2, h3]
  rw [List.eraseIdx_eq_take_drop_succ]
  simp

/-- The column list `onCardDrop` publishes is the old one with the patched column put at the
position of the first column with the given id. -/
theorem patchedColumns_eq_set (s : State) (columnId : String) (col : Column)
    (newCards : List Card)
    (hfind : s.columns.find? (fun c => c._id == columnId) = some col) :
    patchedColumns s columnId col newCards =
      s.columns.set (s.columns.findIdx (fun c => c._id == columnId))
        (patchedColumn col newCards) := by
  have h := findIdx_of_find? _ _ _ hfind
  rw [patchedColumns, findIndex_of_find? _ _ _ hfind, splice_one_in_range _ _ h.1]

/-- The published column list has the ids of the old one, in the same order. -/
theorem patchedColumns_ids (s : State) (columnId : String) (col : Column)
    (newCards : List Card)
    (hfind : s.columns.find? (fun c => c._id == columnId) = some col) :
    (patchedColumns s columnId col newCards).map (fun c => c._id) =
      s.columns.map (fun c => c._id) := by
  have h := findIdx_of_find? _ _ _ hfind
  rw [patchedColumns_eq_set s columnId col newCards hfind, List.map_set]
  apply List.ext_getElem?
  intro i
  by_cases hi : s.columns.findIdx (fun c => c._id == columnId) = i
  · subst hi
    rw [List.getElem?_set_self (by simpa using h.1)]
    simp [h.2, patchedColumn]
  · rw [List.getElem?_set_ne hi]


/-! ## Remote operations (C5, C6) -/

/-- C5. For every board, every column id present in it and every move on which `applyDrag`
returns, the remote operations `onCardDrop` issues are fixed by the kind of move: both indices
set, or only `removedIndex` set: exactly one operation, `updateColumnAPI` with the id of the
target column and that column carrying its new cards and card order; only `addedIndex` set,
with a payload: exactly two operations, that `updateColumnAPI` and `updateCardAPI` with the
payload's id and the payload whose `columnId` is set to the column's id, every other field
unchanged. -/
theorem onCardDrop_remote_operations
    (applyDrag : List Card → DropResult Card → Except Exn (List Card))
    (s : State) (columnId : String) (d : DropResult Card) (col : Column) (newCards : List Card)
    (hfind : s.columns.find? (fun c => c._id == columnId) = some col)
    (hpatch : applyDrag col.cards d = .ok newCards) :
    col._id = columnId ∧
    (∀ i j, d.removedIndex = some i → d.addedIndex = some j →
      (onCardDrop applyDrag s columnId d).calls.map (fun c => c.api) =
        [.updateColumnAPI columnId
          { col with cards := newCards, cardOrder := newCards.map (fun i => i._id) }]) ∧
    (∀ i, d.removedIndex = some i → d.addedIndex = none →
      (onCardDrop applyDrag s columnId d).calls.map (fun c => c.api) =
        [.updateColumnAPI columnId
          { col with cards := newCards, cardOrder := newCards.map (fun i => i._id) }]) ∧
    (∀ j card, d.removedIndex = none → d.addedIndex = some j → d.payload = some card →
      (onCardDrop applyDrag s columnId d).calls.map (fun c => c.api) =
        [.updateColumnAPI columnId
          { col with cards := newCards, cardOrder := newCards.map (fun i => i._id) },
         .updateCardAPI card._id
          { _id := card._id, boardId := card.boardId, columnId := columnId,
            title := card.title }]) := by
  have hid : col._id = columnId := by
    have := List.find?_some hfind
    simpa using this
  refine ⟨hid, ?_, ?_, ?_⟩
  · intro i j hr ha
    rw [onCardDrop_within _ _ _ _ col newCards i j hr ha hfind hpatch]
    simp [patchedColumn, hid]
  · intro i hr ha
    rw [onCardDrop_removal _ _ _ _ col newCards i hr ha hfind hpatch]
    simp [patchedColumn, hid]
  · intro j card hr ha hp
    rw [onCardDrop_insertion _ _ _ _ col newCards j card hr ha hp hfind hpatch]
    simp [patchedColumn, hid]

/-- C5, witnessed on the three kinds of move of Scenario C with the patcher of the
specification. -/
theorem onCardDrop_remote_operations_witness :
    (onCardDrop Patcher.apply stateC "C1" moveWithin).calls.map (fun c => c.api) =
      [.updateColumnAPI "C1" { columnC1 with cards := [cardY, cardX], cardOrder := ["y", "x"] }] ∧
    (onCardDrop Patcher.apply stateC "C1" moveOut).calls.map (fun c => c.api) =
      [.updateColumnAPI "C1" { columnC1 with cards := [cardY], cardOrder := ["y"] }] ∧
    (onCardDrop Patcher.apply stateC "C2" moveIn).calls.map (fun c => c.api) =
      [.updateColumnAPI "C2" { columnC2 with cards := [cardZ, cardX], cardOrder := ["z", "x"] },
       .updateCardAPI "x" { cardX with columnId := "C2" }] :=
  ⟨(onCardDrop_remote_operations Patcher.apply stateC "C1" moveWithin columnC1 [cardY, cardX]
      (by decide) rfl).2.1 0 1 rfl rfl,
   (onCardDrop_remote_operations Patcher.apply stateC "C1" moveOut columnC1 [cardY]
      (by decide) rfl).2.2.1 0 rfl rfl,
   (onCardDrop_remote_operations Patcher.apply stateC "C2" moveIn columnC2 [cardZ, cardX]
      (by decide) rfl).2.2.2 1 cardX rfl rfl rfl⟩

/-- C6. For every board and every move on which `applyDrag` returns, `onColumnDrop` issues
exactly one remote operation, `updateBoardAPI` with the board's id and the board it publishes;
the columns of that board are the result of `applyDrag` on the current columns, its
`columnOrder` is the ids of those columns in order, and its other fields are the old ones. -/
theorem onColumnDrop_remote_operation
    (applyDrag : List Column → DropResult Column → Except Exn (List Column))
    (s : State) (d : DropResult Column) (newColumns : List Column)
    (hpatch : applyDrag s.columns d = .ok newColumns) :
    ∃ newBoard : Board,
      (onColumnDrop applyDrag s d).calls.map (fun c => c.api) =
        [.updateBoardAPI s.board._id newBoard] ∧
      (onColumnDrop applyDrag s d).writes =
        [.setColumns newColumns, .updateCurrentFullBoard newBoard] ∧
      (onColumnDrop applyDrag s d).thrown = none ∧
      newBoard.columns = newColumns ∧
      newBoard.columnOrder = newColumns.map (fun c => c._id) ∧
      newBoard._id = s.board._id ∧
      newBoard.title = s.board.title := by
  refine ⟨boardWith s newColumns, ?_⟩
  rw [onColumnDrop_ok _ _ _ newColumns hpatch]
  simp [boardWith]

/-- C6, witnessed on Scenario A: the columns `[C1, C2]` become `[C2, C1]`. -/
theorem onColumnDrop_remote_operation_witness :
    ∃ newBoard : Board,
      (onColumnDrop Patcher.apply stateC moveColumnA).calls.map (fun c => c.api) =
        [.updateBoardAPI stateC.board._id newBoard] ∧
      (onColumnDrop Patcher.apply stateC moveColumnA).writes =
        [.setColumns [columnC2, columnC1], .updateCurrentFullBoard newBoard] ∧
      (onColumnDrop Patcher.apply stateC moveColumnA).thrown = none ∧
      newBoard.columns = [columnC2, columnC1] ∧
      newBoard.columnOrder = [columnC2, columnC1].map (fun c => c._id) ∧
      newBoard._id = stateC.board._id ∧
      newBoard.title = stateC.board.title :=
  onColumnDrop_remote_operation Patcher.apply stateC moveColumnA [columnC2, columnC1] rfl

/-! ## An unknown column id (C8) -/

/-- C8, as the code has it. When no column of the current columns has the given id,
`onCardDrop` returns without an exception, writes no state and issues no remote operation:
exactly what it does for a move that moves nothing, on any column id. -/
theorem onCardDrop_unknown_column_silent
    (applyDrag : List Card → DropResult Card → Except Exn (List Card))
    (s : State) (columnId : String) (d : DropResult Card)
    (habsent : ∀ c ∈ s.columns, c._id ≠ columnId) :
    onCardDrop applyDrag s columnId d = { writes := [], calls := [], thrown := none } ∧
    ∀ (otherId : String) (payload : Option Card),
      onCardDrop applyDrag s columnId d =
        onCardDrop applyDrag s otherId
          { removedIndex := none, addedIndex := none, payload := payload } := by
  have hfind : s.columns.find? (fun c => c._id == columnId) = none := by
    rw [List.find?_eq_none]
    intro c hc
    simpa using habsent c hc
  refine ⟨onCardDrop_absent _ _ _ _ hfind, ?_⟩
  intro otherId payload
  rw [onCardDrop_absent _ _ _ _ hfind, onCardDrop_noop _ _ _ _ rfl rfl]

/-- C8 witnessed: the arrival of `x` on the unknown column id `"ghost"`. -/
theorem onCardDrop_unknown_column_silent_witness :
    onCardDrop Patcher.apply stateC "ghost" moveIn =
      { writes := [], calls := [], thrown := none } ∧
    ∀ (otherId : String) (payload : Option Card),
      onCardDrop Patcher.apply stateC "ghost" moveIn =
        onCardDrop Patcher.apply stateC otherId
          { removedIndex := none, addedIndex := none, payload := payload } :=
  onCardDrop_unknown_column_silent Patcher.apply stateC "ghost" moveIn (by decide)

/-- C8 refuted as stated: on the board of Scenario C no column has the id `"ghost"` and the
move is not a no-op, yet `onCardDrop` ends without an exception and its whole outcome is equal
to that of the no-op move on the existing column `C1`, so no caller can tell them apart. -/
theorem onCardDrop_unknown_column_not_signalled :
    (∀ c ∈ stateC.columns, c._id ≠ "ghost") ∧
    (moveIn.removedIndex ≠ none ∨ moveIn.addedIndex ≠ none) ∧
    (onCardDrop Patcher.apply stateC "ghost" moveIn).thrown = none ∧
    onCardDrop Patcher.apply stateC "ghost" moveIn =
      onCardDrop Patcher.apply stateC "C1" moveNone := by
  decide

/-! ## Column creation (C9) -/

/-- C9. With a non-empty title `addNewColumn` writes no state before the create call settles;
if the call is fulfilled with column `c`, the columns after settlement, local and in the
store's board, are the previous columns followed by `c`, and `columnOrder` is the ids of the
previous columns followed by `c._id`; if the call is rejected the state is what it was. -/
theorem addNewColumn_create_then_append (gw : Gateway) (s : State)
    (htitle : s.newColumnTitle ≠ "") :
    (addNewColumn s).writes = [] ∧
    (addNewColumn s).calls.map (fun c => c.api) =
      [.createNewColumnAPI { boardId := s.board._id, title := trim s.newColumnTitle }] ∧
    (∀ c : Column,
      gw.createNewColumnAPI { boardId := s.board._id, title := trim s.newColumnTitle }
        = .fulfilled c →
      (run gw s (addNewColumn s)).state.columns = s.columns ++ [c] ∧
      (run gw s (addNewColumn s)).state.board.columns = s.columns ++ [c] ∧
      (run gw s (addNewColumn s)).state.board.columnOrder =
        s.columns.map (fun x => x._id) ++ [c._id] ∧
      (run gw s (addNewColumn s)).state.board._id = s.board._id ∧
      (run gw s (addNewColumn s)).state.board.title = s.board.title) ∧
    (gw.createNewColumnAPI { boardId := s.board._id, title := trim s.newColumnTitle }
        = .rejected →
      (run gw s (addNewColumn s)).state = s) := by
  refine ⟨by simp [addNewColumn, htitle], by simp [addNewColumn, htitle], ?_, ?_⟩
  · intro c hc
    simp [addNewColumn, htitle, run, settle, settleCall, Gateway.respond, hc, publish,
      ThenAppend.writes, Write.perform]
  · intro hc
    simp [addNewColumn, htitle, run, settle, settleCall, Gateway.respond, hc, publish]

/-- C9, witnessed on Scenario E: with the title `"Backlog"` and a create call fulfilled with
the column `"col-9"`, the columns become `[C1, C2, col-9]`; with the call rejected nothing
changes. -/
theorem addNewColumn_create_then_append_witness :
    stateE.newColumnTitle ≠ "" ∧
    ((run gatewayOk stateE (addNewColumn stateE)).state.columns = stateE.columns ++ [columnNew] ∧
      (run gatewayOk stateE (addNewColumn stateE)).state.board.columns =
        stateE.columns ++ [columnNew] ∧
      (run gatewayOk stateE (addNewColumn stateE)).state.board.columnOrder =
        stateE.columns.map (fun x => x._id) ++ [columnNew._id] ∧
      (run gatewayOk stateE (addNewColumn stateE)).state.board._id = stateE.board._id ∧
      (run gatewayOk stateE (addNewColumn stateE)).state.board.title = stateE.board.title) ∧
    (run gatewayDown stateE (addNewColumn stateE)).state = stateE :=
  ⟨by decide,
   (addNewColumn_create_then_append gatewayOk stateE (by decide)).2.2.1 columnNew rfl,
   (addNewColumn_create_then_append gatewayDown stateE (by decide)).2.2.2 rfl⟩


/-! ## Frame of `onCardDrop` (C7) -/

/-- The writes of `onCardDrop` for a move that is not a no-op, on a column that exists, when
`applyDrag` returns. -/
theorem onCardDrop_writes (applyDrag : List Card → DropResult Card → Except Exn (List Card))
    (s : State) (columnId : String) (d : DropResult Card) (col : Column) (newCards : List Card)
    (hmove : d.removedIndex ≠ none ∨ d.addedIndex ≠ none)
    (hfind : s.columns.find? (fun c => c._id == columnId) = some col)
    (hpatch : applyDrag col.cards d = .ok newCards) :
    (onCardDrop applyDrag s columnId d).writes =
      [.setColumns (patchedColumns s columnId col newCards),
       .updateCurrentFullBoard (boardWith s (patchedColumns s columnId col newCards))] := by
  cases hr : d.removedIndex with
  | none =>
    cases ha : d.addedIndex with
    | none => simp [hr, ha] at hmove
    | some j =>
      cases hp : d.payload with
      | none => rw [onCardDrop_insertion_null _ _ _ _ col newCards j hr ha hp hfind hpatch]
      | some card => rw [onCardDrop_insertion _ _ _ _ col newCards j card hr ha hp hfind hpatch]
  | some i =>
    cases ha : d.addedIndex with
    | none => rw [onCardDrop_removal _ _ _ _ col newCards i hr ha hfind hpatch]
    | some j => rw [onCardDrop_within _ _ _ _ col newCards i j hr ha hfind hpatch]

/-- C7. Frame of `onCardDrop`: for every board, every column id present in it and every move
that is not a no-op and on which `applyDrag` returns, with `k` the position of the first
column with that id: the published column list has the length of the old one, holds at every
position other than `k` the column that was there, holds at `k` a column with the `_id` and
all other fields of the old one except `cards` and `cardOrder`, which are the patched cards
and their ids, and has the same sequence of
ids, which is the published `columnOrder`. -/
theorem onCardDrop_frame (applyDrag : List Card → DropResult Card → Except Exn (List Card))
    (s : State) (columnId : String) (d : DropResult Card) (col : Column) (newCards : List Card)
    (hmove : d.removedIndex ≠ none ∨ d.addedIndex ≠ none)
    (hfind : s.columns.find? (fun c => c._id == columnId) = some col)
    (hpatch : applyDrag col.cards d = .ok newCards) :
    ∃ k : Nat, k < s.columns.length ∧ s.columns[k]? = some col ∧
      (∀ i c, i < k → s.columns[i]? = some c → c._id ≠ columnId) ∧
      (publish s (onCardDrop applyDrag s columnId d).writes).columns.length
        = s.columns.length ∧
      (∀ i, i ≠ k →
        (publish s (onCardDrop applyDrag s columnId d).writes).columns[i]? = s.columns[i]?) ∧
      (∃ c, (publish s (onCardDrop applyDrag s columnId d).writes).columns[k]? = some c ∧
        c._id = col._id ∧ c.boardId = col.boardId ∧ c.title = col.title ∧
        c._destroy = col._destroy ∧ c.cards = newCards ∧
        c.cardOrder = newCards.map (fun i => i._id)) ∧
      (publish s (onCardDrop applyDrag s columnId d).writes).columns.map (fun c => c._id)
        = s.columns.map (fun c => c._id) ∧
      (publish s (onCardDrop applyDrag s columnId d).writes).board.columns
        = (publish s (onCardDrop applyDrag s columnId d).writes).columns ∧
      (publish s (onCardDrop applyDrag s columnId d).writes).board.columnOrder
        = s.columns.map (fun c => c._id) := by
  have h := findIdx_of_find? _ _ _ hfind
  have hpub : publish s (onCardDrop applyDrag s columnId d).writes =
      { s with columns := patchedColumns s columnId col newCards
               board := boardWith s (patchedColumns s columnId col newCards) } := by
    rw [onCardDrop_writes _ _ _ _ col newCards hmove hfind hpatch]
    rfl
  rw [hpub]
  have hids := patchedColumns_ids s columnId col newCards hfind
  have hset := patchedColumns_eq_set s columnId col newCards hfind
  refine ⟨s.columns.findIdx (fun c => c._id == columnId), h.1, h.2, ?_, ?_, ?_, ?_, hids, rfl,
    ?_⟩
  · intro i c hi hc hid
    have hlt : i < s.columns.length := lt_trans hi h.1
    have hnot := List.not_of_lt_findIdx hi
    rw [List.getElem?_eq_getElem hlt] at hc
    simp only [Option.some.injEq] at hc
    rw [hc] at hnot
    simp [hid] at hnot
  · simp only [hset, List.length_set]
  · intro i hi
    simp only [hset]
    exact List.getElem?_set_ne (Ne.symm hi)
  · refine ⟨patchedColumn col newCards, ?_, rfl, rfl, rfl, rfl, rfl, rfl⟩
    simp only [hset]
    exact List.getElem?_set_self h.1
  · simp only [boardWith]
    exact hids

/-- C7, witnessed on the arrival of `x` in `C2` (Scenario C): `C2` is at position 1. -/
theorem onCardDrop_frame_witness :
    ∃ k : Nat, k < stateC.columns.length ∧ stateC.columns[k]? = some columnC2 ∧
      (∀ i c, i < k → stateC.columns[i]? = some c → c._id ≠ "C2") ∧
      (publish stateC (onCardDrop Patcher.apply stateC "C2" moveIn).writes).columns.length
        = stateC.columns.length ∧
      (∀ i, i ≠ k →
        (publish stateC (onCardDrop Patcher.apply stateC "C2" moveIn).writes).columns[i]?
          = stateC.columns[i]?) ∧
      (∃ c, (publish stateC (onCardDrop Patcher.apply stateC "C2" moveIn).writes).columns[k]?
          = some c ∧
        c._id = columnC2._id ∧ c.boardId = columnC2.boardId ∧ c.title = columnC2.title ∧
        c._destroy = columnC2._destroy ∧ c.cards = [cardZ, cardX] ∧
        c.cardOrder = [cardZ, cardX].map (fun i => i._id)) ∧
      (publish stateC (onCardDrop Patcher.apply stateC "C2" moveIn).writes).columns.map
          (fun c => c._id) = stateC.columns.map (fun c => c._id) ∧
      (publish stateC (onCardDrop Patcher.apply stateC "C2" moveIn).writes).board.columns
        = (publish stateC (onCardDrop Patcher.apply stateC "C2" moveIn).writes).columns ∧
      (publish stateC (onCardDrop Patcher.apply stateC "C2" moveIn).writes).board.columnOrder
        = stateC.columns.map (fun c => c._id) :=
  onCardDrop_frame Patcher.apply stateC "C2" moveIn columnC2 [cardZ, cardX]
    (by decide) (by decide) rfl


/-! ## Index alignment (C3) -/

/-- Scenario B of the specification: `[a, b, c]` with `removedIndex` 2 and `addedIndex` 0
becomes `[c, a, b]`. -/
theorem Patcher.apply_scenario_B :
    Patcher.apply ["a", "b", "c"] { removedIndex := some 2, addedIndex := some 0, payload := none }
      = .ok ["c", "a", "b"] := rfl

/-- Scenario C of the specification: `x` leaves `[x, y]` and arrives in `[z]` at index 1; an
index out of range is an `InvariantViolation`. -/
theorem Patcher.apply_scenario_C :
    Patcher.apply columnC1.cards moveOut = .ok [cardY] ∧
    Patcher.apply columnC2.cards moveIn = .ok [cardZ, cardX] ∧
    Patcher.apply columnC2.cards { moveIn with addedIndex := some 2 }
      = .error .InvariantViolation := ⟨rfl, rfl, rfl⟩

/-- The patcher of the specification returns only elements of its input and the payload. -/
theorem Patcher.apply_mem {α : Type} (l : List α) (d : DropResult α) (r : List α)
    (h : Patcher.apply l d = .ok r) : ∀ x ∈ r, x ∈ l ∨ d.payload = some x := by
  intro x hx
  unfold Patcher.apply at h
  cases hr : d.removedIndex with
  | none =>
    rw [hr] at h
    cases ha : d.addedIndex with
    | none =>
      rw [ha] at h
      simp only [Except.ok.injEq] at h
      subst h
      exact Or.inl hx
    | some j =>
      rw [ha] at h
      cases hp : d.payload with
      | none => rw [hp] at h; simp at h
      | some item =>
        rw [hp] at h
        simp only at h
        split at h
        · simp only [Except.ok.injEq] at h
          subst h
          simp only [List.mem_append, List.mem_singleton] at hx
          rcases hx with (hx | hx) | hx
          · exact Or.inl (List.mem_of_mem_take hx)
          · exact Or.inr (by rw [hx])
          · exact Or.inl (List.mem_of_mem_drop hx)
        · simp at h
  | some i =>
    rw [hr] at h
    simp only at h
    cases hi : l[i]? with
    | none => rw [hi] at h; simp at h
    | some removed =>
      rw [hi] at h
      simp only at h
      have hmem : removed ∈ l := List.getElem?_mem hi
      cases ha : d.addedIndex with
      | none =>
        rw [ha] at h
        simp only [Except.ok.injEq] at h
        subst h
        exact Or.inl (List.mem_of_mem_eraseIdx hx)
      | some j =>
        rw [ha] at h
        simp only at h
        split at h
        · simp only [Except.ok.injEq] at h
          subst h
          simp only [List.mem_append, List.mem_singleton] at hx
          rcases hx with (hx | hx) | hx
          · exact Or.inl (List.mem_of_mem_eraseIdx (List.mem_of_mem_take hx))
          · cases hp : d.payload with
            | none => rw [hp] at hx; simp only [Option.getD_none] at hx; rw [hx]; exact Or.inl hmem
            | some item => rw [hp] at hx; simp only [Option.getD_some] at hx; rw [hx]; exact Or.inr rfl
          · exact Or.inl (List.mem_of_mem_eraseIdx (List.mem_of_mem_drop hx))
        · simp at h

/-- C3. Index alignment: let every column of the current columns be aligned (`cardOrder` is
the ids of `cards`, in order). Then for every move every board `onColumnDrop` publishes and
every board `onCardDrop` publishes is aligned: `columnOrder` is the ids of `columns`, in order,
and every column is aligned. A column move carries the payload the column container gives it,
`getChildPayload` of some index (line 201), and `applyDrag` returns only elements of its input
and the payload. -/
theorem published_boards_aligned
    (applyColumns : List Column → DropResult Column → Except Exn (List Column))
    (applyCards : List Card → DropResult Card → Except Exn (List Card))
    (s : State) (columnDrop : DropResult Column) (columnId : String) (cardDrop : DropResult Card)
    (hpatcher : ∀ l d r, applyColumns l d = .ok r → ∀ c ∈ r, c ∈ l ∨ d.payload = some c)
    (hcolumns : ∀ c ∈ s.columns, c.aligned)
    (hpayload : ∀ c, columnDrop.payload = some c → ∃ index, getChildPayload s index = some c) :
    (∀ b, Write.updateCurrentFullBoard b ∈ (onColumnDrop applyColumns s columnDrop).writes →
      b.aligned) ∧
    (∀ b, Write.updateCurrentFullBoard b ∈ (onCardDrop applyCards s columnId cardDrop).writes →
      b.aligned) := by
  constructor
  · intro b hb
    cases h : applyColumns s.columns columnDrop with
    | error e => rw [onColumnDrop_error _ _ _ e h] at hb; simp at hb
    | ok newColumns =>
      rw [onColumnDrop_ok _ _ _ newColumns h] at hb
      simp only [List.mem_cons, Write.updateCurrentFullBoard.injEq, List.mem_singleton,
        List.not_mem_nil, or_false, false_or, reduceCtorEq] at hb
      subst hb
      refine ⟨rfl, ?_⟩
      intro c hc
      rcases hpatcher _ _ _ h c hc with hin | hpay
      · exact hcolumns c hin
      · obtain ⟨index, hidx⟩ := hpayload c hpay
        exact hcolumns c (List.getElem?_mem hidx)
  · intro b hb
    rcases onCardDrop_shape applyCards s columnId cardDrop with ⟨hw, -⟩ |
      ⟨col, newCards, hfind, -, hw, -⟩
    · rw [hw] at hb; simp at hb
    · rw [hw] at hb
      simp only [List.mem_cons, Write.updateCurrentFullBoard.injEq, List.mem_singleton,
        List.not_mem_nil, or_false, false_or, reduceCtorEq] at hb
      subst hb
      refine ⟨rfl, ?_⟩
      intro c hc
      simp only [boardWith] at hc
      rw [patchedColumns_eq_set s columnId col newCards hfind] at hc
      rcases List.mem_or_eq_of_mem_set hc with hin | heq
      · exact hcolumns c hin
      · rw [heq]; rfl

/-- C3, witnessed on Scenario A, whose payload is the column at index 0, and on the arrival of
`x` in `C2`: both handlers publish a board, and it is aligned. -/
theorem published_boards_aligned_witness :
    ((onColumnDrop Patcher.apply stateC moveColumnA).writes ≠ [] ∧
      (onCardDrop Patcher.apply stateC "C2" moveIn).writes ≠ []) ∧
    (∀ b, Write.updateCurrentFullBoard b ∈
        (onColumnDrop Patcher.apply stateC moveColumnA).writes → b.aligned) ∧
    (∀ b, Write.updateCurrentFullBoard b ∈
        (onCardDrop Patcher.apply stateC "C2" moveIn).writes → b.aligned) :=
  ⟨by decide,
   published_boards_aligned Patcher.apply Patcher.apply stateC moveColumnA "C2" moveIn
    (fun l d r h => Patcher.apply_mem l d r h) (by decide)
    (fun _ hc => ⟨0, Eq.trans (rfl : getChildPayload stateC 0 = moveColumnA.payload) hc⟩)⟩

/-! ## The card update of a cross-column move (C2, C4) -/

/-- In a cross-column insertion whose column update is fulfilled and whose card update is
rejected, nothing is rolled back: the state after settlement is the optimistic one, and the
rejection of the card update is not handled. -/
theorem onCardDrop_card_rejection_unhandled
    (applyDrag : List Card → DropResult Card → Except Exn (List Card))
    (gw : Gateway) (s : State) (columnId : String) (d : DropResult Card) (col : Column)
    (newCards : List Card) (j : Nat) (card : Card)
    (hr : d.removedIndex = none) (ha : d.addedIndex = some j) (hp : d.payload = some card)
    (hfind : s.columns.find? (fun c => c._id == columnId) = some col)
    (hpatch : applyDrag col.cards d = .ok newCards)
    (hcolumn : gw.updateColumnAPI col._id (patchedColumn col newCards) = .fulfilled ())
    (hcard : gw.updateCardAPI card._id { card with columnId := col._id } = .rejected) :
    run gw s (onCardDrop applyDrag s columnId d) =
      { state := publish s (onCardDrop applyDrag s columnId d).writes
        unhandledRejections := [.updateCardAPI card._id { card with columnId := col._id }] } := by
  rw [onCardDrop_insertion _ _ _ _ col newCards j card hr ha hp hfind hpatch]
  simp [run, settle, settleCall, Gateway.respond, hcolumn, hcard]

/-- C2, the code at the failing input. Scenario C, the arrival of `x` in `C2`, on a gateway
where the column update is fulfilled and the card update is rejected: after settlement the
columns are still the moved ones, the state is not the one before the move, and the rejection
of `updateCardAPI` is left unhandled. -/
theorem cross_move_card_rejection_not_rolled_back :
    (run gatewayCardDown stateC (onCardDrop Patcher.apply stateC "C2" moveIn)).state.columns =
      [columnC1, { columnC2 with cards := [cardZ, cardX], cardOrder := ["z", "x"] }] ∧
    (run gatewayCardDown stateC (onCardDrop Patcher.apply stateC "C2" moveIn)).state.board.columns =
      [columnC1, { columnC2 with cards := [cardZ, cardX], cardOrder := ["z", "x"] }] ∧
    (run gatewayCardDown stateC (onCardDrop Patcher.apply stateC "C2" moveIn)).state ≠ stateC ∧
    (run gatewayCardDown stateC
        (onCardDrop Patcher.apply stateC "C2" moveIn)).unhandledRejections =
      [.updateCardAPI "x" { cardX with columnId := "C2" }] := by
  decide

/-- C4, the code at the failing input. On the board of Scenario C every card names the column
that holds it; after the arrival of `x` (owned by `C1`) in `C2`, the published column `C2`
holds `x` with `columnId` still `"C1"`, so ownership fails on the published columns, local and
in the store's board, while the card sent to `updateCardAPI` has `columnId` `"C2"`. -/
theorem cross_move_published_card_keeps_old_column :
    ownedBy stateC.columns ∧
    (publish stateC (onCardDrop Patcher.apply stateC "C2" moveIn).writes).columns =
      [columnC1, { columnC2 with cards := [cardZ, cardX], cardOrder := ["z", "x"] }] ∧
    (publish stateC (onCardDrop Patcher.apply stateC "C2" moveIn).writes).board.columns =
      [columnC1, { columnC2 with cards := [cardZ, cardX], cardOrder := ["z", "x"] }] ∧
    cardX.columnId = "C1" ∧
    ¬ ownedBy (publish stateC (onCardDrop Patcher.apply stateC "C2" moveIn).writes).columns ∧
    ¬ ownedBy
      (publish stateC (onCardDrop Patcher.apply stateC "C2" moveIn).writes).board.columns ∧
    (onCardDrop Patcher.apply stateC "C2" moveIn).calls.map (fun c => c.api) =
      [.updateColumnAPI "C2" { columnC2 with cards := [cardZ, cardX], cardOrder := ["z", "x"] },
       .updateCardAPI "x" { cardX with columnId := "C2" }] := by
  decide

/-! ## `onUpdateColumnState` (C10) -/

/-- Splicing at `-1` with a delete count of one drops the last element, if there is one, and
appends the items. -/
theorem splice_minus_one_any {α : Type} (l items : List α) :
    splice l (-1) 1 items = l.dropLast ++ items := by
  cases l with
  | nil => simp [splice]
  | cons x xs =>
    have h2 : (max (((x :: xs).length : Int) + -1) 0).toNat = (x :: xs).length - 1 := by
      rw [max_eq_left (by simp only [List.length_cons]; omega)]
      simp only [List.length_cons]; omega
    have h3 : min 1 ((x :: xs).length - ((x :: xs).length - 1)) = 1 := by
      simp only [List.length_cons]; omega
    have h4 : (x :: xs).length - 1 + 1 = (x :: xs).length := by
      simp only [List.length_cons]; omega
    simp only [splice, show ((-1 : Int) < 0) from by omega, if_true, h2, h3, h4]
    simp [List.dropLast_eq_take]

/-- The board `onUpdateColumnState` publishes is the old one with the published columns and
with `columnOrder` the ids of the published columns, in order. -/
theorem onUpdateColumnState_order (s : State) (u : Column) :
    ∃ newColumns, (onUpdateColumnState s u).writes =
      [.setColumns newColumns,
       .updateCurrentFullBoard
         { s.board with columnOrder := newColumns.map (fun c => c._id), columns := newColumns }] :=
  ⟨_, rfl⟩

/-- When a column has the id of `u`, `onUpdateColumnState` replaces the first such column by
`u`, or removes it when `u._destroy` is set; nothing else changes. -/
theorem onUpdateColumnState_known_id (s : State) (u col : Column)
    (hfind : s.columns.find? (fun i => i._id == u._id) = some col) :
    (publish s (onUpdateColumnState s u).writes).columns =
      if u._destroy then s.columns.eraseIdx (s.columns.findIdx (fun i => i._id == u._id))
      else s.columns.set (s.columns.findIdx (fun i => i._id == u._id)) u := by
  have h := findIdx_of_find? _ _ _ hfind
  simp only [onUpdateColumnState, publish, List.foldl, Write.perform,
    findIndex_of_find? _ _ _ hfind]
  split
  · exact splice_remove_in_range _ _ h.1
  · exact splice_one_in_range _ _ h.1 _

/-- When no column has the id of `u`, `onUpdateColumnState` overwrites the last column with
`u`, or removes the last column when `u._destroy` is set. -/
theorem onUpdateColumnState_unknown_id (s : State) (u : Column)
    (habsent : ∀ c ∈ s.columns, c._id ≠ u._id) :
    (publish s (onUpdateColumnState s u).writes).columns =
      if u._destroy then s.columns.dropLast else s.columns.dropLast ++ [u] := by
  have hidx : findIndex (fun i => i._id == u._id) s.columns = -1 :=
    findIndex_of_forall_not _ _ (fun c hc => by simpa using habsent c hc)
  simp only [onUpdateColumnState, publish, List.foldl, Write.perform, hidx]
  split
  · simpa using splice_minus_one_any s.columns []
  · exact splice_minus_one_any s.columns [u]

/-- C10, the code at the failing input. No column of Scenario C has the id `"ghost"`, yet
`onUpdateColumnState` with a column of that id publishes the columns `[C1, ghost]`: the last
column `C2` is overwritten; with `_destroy` set it publishes `[C1]`: `C2` is removed. -/
theorem onUpdateColumnState_unknown_id_hits_last_column :
    (∀ c ∈ stateC.columns, c._id ≠ columnGhost._id) ∧
    (publish stateC (onUpdateColumnState stateC columnGhost).writes).columns =
      [columnC1, columnGhost] ∧
    (publish stateC (onUpdateColumnState stateC columnGhost).writes).board.columnOrder =
      ["C1", "ghost"] ∧
    (publish stateC
        (onUpdateColumnState stateC { columnGhost with _destroy := true }).writes).columns =
      [columnC1] ∧
    (publish stateC (onUpdateColumnState stateC columnGhost).writes).columns
      ≠ stateC.columns := by
  decide


/-! ## The column effect

The handlers write the local columns and the board together, so on a state left by the effect
of lines 43-47 every state they lead to is again a fixed point of that effect: running the
effect between or after the writes of a handler changes nothing. -/

/-- From a state in which the local columns are the columns of the board, the state a drop
handler, `addNewColumn` or `onUpdateColumnState` leads to, after its calls have settled in
whatever way, is a fixed point of the column effect. -/
theorem run_state_synced
    (applyColumns : List Column → DropResult Column → Except Exn (List Column))
    (applyCards : List Card → DropResult Card → Except Exn (List Card))
    (gw : Gateway) (s : State) (columnDrop : DropResult Column)
    (columnId : String) (cardDrop : DropResult Card) (u : Column)
    (hs : s.columns = s.board.columns) :
    syncColumns (run gw s (onColumnDrop applyColumns s columnDrop)).state
      = (run gw s (onColumnDrop applyColumns s columnDrop)).state ∧
    syncColumns (run gw s (onCardDrop applyCards s columnId cardDrop)).state
      = (run gw s (onCardDrop applyCards s columnId cardDrop)).state ∧
    syncColumns (run gw s (addNewColumn s)).state = (run gw s (addNewColumn s)).state ∧
    syncColumns (run gw s (onUpdateColumnState s u)).state
      = (run gw s (onUpdateColumnState s u)).state := by
  have hfix : syncColumns s = s := by
    simp only [syncColumns, Write.perform, ← hs]
  have hopt : ∀ cs : List Column,
      syncColumns (publish s [.setColumns cs, .updateCurrentFullBoard (boardWith s cs)])
        = publish s [.setColumns cs, .updateCurrentFullBoard (boardWith s cs)] := by
    intro cs
    simp [syncColumns, publish, Write.perform, boardWith]
  refine ⟨?_, ?_, ?_, ?_⟩
  · cases h : applyColumns s.columns columnDrop with
    | error e => rw [onColumnDrop_error _ _ _ e h]; exact hfix
    | ok newColumns =>
      rw [onColumnDrop_ok _ _ _ newColumns h]
      simp only [run, settle, List.foldl, settleCall, Gateway.respond]
      cases gw.updateBoardAPI s.board._id (boardWith s newColumns) with
      | fulfilled _ => exact hopt newColumns
      | rejected => simp only [publish_restore]; exact hfix
  · rcases onCardDrop_shape applyCards s columnId cardDrop with ⟨hw, hc⟩ |
      ⟨col, newCards, -, -, hw, more, hc, hmore⟩
    · simp only [run, settle, hw, hc, publish, List.foldl]; exact hfix
    · rcases hmore with rfl | ⟨id, card, rfl⟩
      · simp only [run, settle, hw, hc, List.foldl, settleCall, Gateway.respond]
        cases gw.updateColumnAPI col._id (patchedColumn col newCards) with
        | fulfilled _ => exact hopt _
        | rejected => simp only [publish_restore]; exact hfix
      · simp only [run, settle, hw, hc, List.foldl, settleCall, Gateway.respond]
        cases gw.updateColumnAPI col._id (patchedColumn col newCards) with
        | fulfilled _ => cases gw.updateCardAPI id card <;> exact hopt _
        | rejected =>
          simp only [publish_restore]
          cases gw.updateCardAPI id card <;> exact hfix
  · by_cases ht : s.newColumnTitle = ""
    · simp only [addNewColumn, ht, if_true, run, settle, List.foldl, publish, Write.perform]
      exact hfix
    · simp only [addNewColumn, ht, if_false, run, settle, List.foldl, publish, settleCall,
        Gateway.respond]
      cases gw.createNewColumnAPI { boardId := s.board._id, title := trim s.newColumnTitle } with
      | fulfilled c => simp [syncColumns, ThenAppend.writes, Write.perform]
      | rejected => exact hfix
  · simp [run, settle, onUpdateColumnState, syncColumns, publish, Write.perform]

end BoardContent
